import Mathlib

/-!
Shallow embedding of the bevy-game-of-life simulation core (src/main.rs)
and proofs about its seed generator, neighbor counting and generation
stepper. Machine integers (i32) are modelled as Int; the Rust remainder
operator on i32 is Int.tmod (truncation toward zero); the Rust HashSet is
a Finset; the ECS query over all Cell components is a list of cells, and
the in-place mutation pass of dead_or_alive is a left fold that rebuilds
the cell list in iteration order while accumulating the Dashboard.
-/

namespace GameOfLife

/-- Grid half side length, from the constant HALF_LEN: i32 = 40. -/
def HALF_LEN : Int := 40

/-- Number of initially alive cells, from INIT_ALIVE_COUNT = (HALF_LEN * HALF_LEN) as usize. -/
def INIT_ALIVE_COUNT : Nat := (HALF_LEN * HALF_LEN).toNat

/-- Cell coordinates, from type Coord = (i32, i32). -/
abbrev Coord := Int × Int

/-- Cell state enum, from enum State { Dead, Alive }. -/
inductive State where
  | Dead : State
  | Alive : State
deriving DecidableEq

/-- Cell component, from struct Cell { state: State, index_xy: Coord }. -/
structure Cell where
  state : State
  index_xy : Coord
deriving DecidableEq

/-- Dashboard resource, from struct Dashboard { round: usize, survival: usize }. -/
structure Dashboard where
  round : Nat
  survival : Nat
deriving DecidableEq

/-- Neighbor counting, from fn alive_neighbor_count(me: &Coord, alives: &Vec<Coord>) -> usize:
the 8 surrounding candidate coordinates are filtered by the bounds test
x >= -HALF_LEN && y >= -HALF_LEN && x <= HALF_LEN && y <= HALF_LEN and then by
membership in the alives vector, and the survivors are counted. -/
def alive_neighbor_count (me : Coord) (alives : List Coord) : Nat :=
  let x := me.1
  let y := me.2
  ([(x - 1, y - 1), (x - 1, y), (x - 1, y + 1), (x, y - 1), (x, y + 1),
      (x + 1, y - 1), (x + 1, y), (x + 1, y + 1)].filter
    (fun c =>
      (decide (-HALF_LEN ≤ c.1) && decide (-HALF_LEN ≤ c.2) &&
          decide (c.1 ≤ HALF_LEN) && decide (c.2 ≤ HALF_LEN)) &&
        alives.any (fun a => a == c))).length

/-- Snapshot of the live coordinates, from the alive_coords collection at the
start of fn dead_or_alive: the index_xy of every cell whose state is Alive. -/
def aliveCoords (cells : List Cell) : List Coord :=
  (cells.filter (fun c => c.state == State.Alive)).map (fun c => c.index_xy)

/-- Body of the per-cell loop of fn dead_or_alive: compute the live neighbor
count of the visited cell against the snapshot, rewrite its state by the Life
rule match, and bump the survival counter when the written state is Alive.
The rebuilt cell is appended, modelling the in-place write of the iteration. -/
def stepBody (alive_coords : List Coord) (acc : Dashboard × List Cell) (cell : Cell) :
    Dashboard × List Cell :=
  let live_count := alive_neighbor_count cell.index_xy alive_coords
  let state1 :=
    match cell.state with
    | State.Alive => if live_count < 2 || live_count > 3 then State.Dead else cell.state
    | State.Dead => if live_count == 3 then State.Alive else cell.state
  let db1 :=
    if state1 == State.Alive then
      { acc.1 with survival := acc.1.survival + 1 }
    else acc.1
  (db1, acc.2 ++ [{ cell with state := state1 }])

/-- Generation stepper, from fn dead_or_alive(mut db: ResMut<Dashboard>, mut query: Query<&mut Cell>):
capture the alive coordinate snapshot; if it is empty return unchanged;
otherwise zero the survival counter, rewrite every cell by the Life rule
against the snapshot while counting the cells left Alive, and finally
increment the round counter. -/
def dead_or_alive (db : Dashboard) (cells : List Cell) : Dashboard × List Cell :=
  let alive_coords := aliveCoords cells
  if alive_coords.length == 0 then
    (db, cells)
  else
    let res := cells.foldl (stepBody alive_coords) ({ db with survival := 0 }, [])
    ({ res.1 with round := res.1.round + 1 }, res.2)

/-- One simulation tick as a transformation of the full simulation state. -/
def tick (p : Dashboard × List Cell) : Dashboard × List Cell :=
  dead_or_alive p.1 p.2

/-- The state rewrite that the loop body of fn dead_or_alive performs on one
visited cell, extracted for reasoning about the fold. -/
def updatedCell (alive_coords : List Coord) (cell : Cell) : Cell :=
  let live_count := alive_neighbor_count cell.index_xy alive_coords
  { cell with state :=
      match cell.state with
      | State.Alive => if live_count < 2 || live_count > 3 then State.Dead else cell.state
      | State.Dead => if live_count == 3 then State.Alive else cell.state }

/-- Number of cells of a list whose state is Alive. -/
def countAlive (cells : List Cell) : Nat :=
  (cells.filter (fun c => c.state == State.Alive)).length

/-- Default cell used by the total list indexing in the theorems. -/
def defaultCell : Cell :=
  { state := State.Dead, index_xy := (0, 0) }

/-- Membership in the materialized grid: fn setup creates one cell for every
pair with x in -HALF_LEN..HALF_LEN and y in -HALF_LEN..HALF_LEN, both
half open ranges. -/
def inGrid (c : Coord) : Prop :=
  -HALF_LEN ≤ c.1 ∧ c.1 < HALF_LEN ∧ -HALF_LEN ≤ c.2 ∧ c.2 < HALF_LEN

instance : DecidablePred inGrid := fun c => by
  unfold inGrid; infer_instance

/-- Modelled from the spec for the refinement comparison of claim C10: the
same counting function as alive_neighbor_count except that the upper bounds
test uses the strict grid bound HALF_LEN - 1 instead of the inclusive
HALF_LEN found in the implementation. -/
def alive_neighbor_count_strict (me : Coord) (alives : List Coord) : Nat :=
  let x := me.1
  let y := me.2
  ([(x - 1, y - 1), (x - 1, y), (x - 1, y + 1), (x, y - 1), (x, y + 1),
      (x + 1, y - 1), (x + 1, y), (x + 1, y + 1)].filter
    (fun c =>
      (decide (-HALF_LEN ≤ c.1) && decide (-HALF_LEN ≤ c.2) &&
          decide (c.1 ≤ HALF_LEN - 1) && decide (c.2 ≤ HALF_LEN - 1)) &&
        alives.any (fun a => a == c))).length

/-- Corner of the materialized grid: both components extremal. -/
def isCorner (c : Coord) : Prop :=
  (c.1 = -HALF_LEN ∨ c.1 = HALF_LEN - 1) ∧ (c.2 = -HALF_LEN ∨ c.2 = HALF_LEN - 1)

/-- Boundary of the materialized grid: an in-grid coordinate with at least one
extremal component. -/
def isBoundary (c : Coord) : Prop :=
  inGrid c ∧ (c.1 = -HALF_LEN ∨ c.1 = HALF_LEN - 1 ∨ c.2 = -HALF_LEN ∨ c.2 = HALF_LEN - 1)

instance : DecidablePred isCorner := fun c => by
  unfold isCorner; infer_instance

instance : DecidablePred isBoundary := fun c => by
  unfold isBoundary; infer_instance

/-- Modelled from the spec for claim C1: the classical Life transition
relation between an old cell state, the live neighbor count, and the new
state. An Alive cell with count below 2 or above 3 becomes Dead and stays
Alive on 2 or 3; a Dead cell becomes Alive exactly on count 3. -/
def lifeRuleSpec (old : State) (n : Nat) (new : State) : Prop :=
  (old = State.Alive →
    ((n < 2 ∨ 3 < n) → new = State.Dead) ∧ ((n = 2 ∨ n = 3) → new = State.Alive)) ∧
  (old = State.Dead →
    ((n = 3 → new = State.Alive) ∧ (n ≠ 3 → new = State.Dead)))

/-- Concrete one-cell live grid used by the witnesses. -/
def exCells : List Cell := [{ state := State.Alive, index_xy := (0, 0) }]

/-- Concrete one-cell dead grid used by the extinction witness. -/
def exDeadCells : List Cell := [{ state := State.Dead, index_xy := (0, 0) }]

/-- Concrete dashboard used by the witnesses. -/
def exDb : Dashboard := { round := 0, survival := 0 }

/-- One random draw mapped to a coordinate, from the loop body of fn seed:
let x = random::<i32>() % HALF_LEN and likewise for y. The Rust remainder
on i32 truncates toward zero, which is Int.tmod. -/
def toCoord (r : Int × Int) : Coord :=
  (Int.tmod r.1 HALF_LEN, Int.tmod r.2 HALF_LEN)

/-- Rejection sampling loop of fn seed, parametrized by the target set size
and fed by an explicit finite stream of random draws: while the set is
smaller than the target, draw, reduce modulo HALF_LEN and insert; stop with
the set once the target size is reached, and give up with none when the
stream is exhausted (the Rust loop would keep drawing forever). -/
def seedAux (target : Nat) : List (Int × Int) → Finset Coord → Option (Finset Coord)
  | [], acc => if target ≤ acc.card then some acc else none
  | r :: rest, acc =>
    if target ≤ acc.card then some acc
    else seedAux target rest (insert (toCoord r) acc)

/-- fn seed: run the sampling loop with target INIT_ALIVE_COUNT starting
from the empty set. -/
def seed (raws : List (Int × Int)) : Option (Finset Coord) :=
  seedAux INIT_ALIVE_COUNT raws ∅

/-- Stream of 1600 draws whose reduced coordinates are exactly the quadrant
[0, 40) x [0, 40), pairwise distinct, used to exhibit a completing run of
the seed loop. -/
def quadrantRaws : List (Int × Int) :=
  (List.range 1600).map (fun n => (((n / 40 : Nat) : Int), ((n % 40 : Nat) : Int)))

/-- The quadrant stream preceded by a draw that reduces to (-1, -1). -/
def negRaws : List (Int × Int) := (-1, -1) :: quadrantRaws

/-- Possible values of one modulo-reduced draw: both components lie in the
interval from -(HALF_LEN - 1) to HALF_LEN - 1. -/
def sampleDomain : Finset Coord :=
  Finset.Icc (-(HALF_LEN - 1)) (HALF_LEN - 1) ×ˢ Finset.Icc (-(HALF_LEN - 1)) (HALF_LEN - 1)

/-- The x (and y) index range of the cell creation loops of fn setup:
-HALF_LEN..HALF_LEN as a list of integers. -/
def coordRange : List Int :=
  (List.range (2 * HALF_LEN).toNat).map (fun n : Nat => (n : Int) - HALF_LEN)

/-- The coordinates of all cells materialized by fn setup: the nested loops
over x and then y. -/
def gridCoords : List Coord :=
  coordRange.flatMap (fun x => coordRange.map (fun y => (x, y)))

section NeighborCount

/-- C7: on the live set of the unit test the count is 3 at the origin and 2
at the coordinate two to the left of it, and for every coordinate and every
live set the count is at most 8 (it is a natural number, so at least 0). -/
theorem C7_neighbor_count_tests_and_range :
    alive_neighbor_count (0, 0) [(-1, -1), (-1, 0), (0, -1)] = 3 ∧
    alive_neighbor_count (-2, -1) [(-1, -1), (-1, 0), (0, -1)] = 2 ∧
    ∀ (me : Coord) (alives : List Coord), alive_neighbor_count me alives ≤ 8 := by
  refine ⟨by decide, by decide, ?_⟩
  intro me alives
  unfold alive_neighbor_count
  exact le_trans (List.length_filter_le _ _) (by simp)

/-- C3 counterexample: the bounds test of alive_neighbor_count accepts
candidates with a component equal to HALF_LEN, which lie outside the
materialized grid, so at the grid corner (39, 39) a live set placed on all
eight surrounding coordinates yields a count of 8, exceeding 3. -/
theorem C3_counterexample :
    3 < alive_neighbor_count (HALF_LEN - 1, HALF_LEN - 1)
        [(38, 38), (38, 39), (38, 40), (39, 38), (39, 40), (40, 38), (40, 39), (40, 40)] := by
  decide

/-- C10: on live sets whose members all lie inside the grid, the implemented
count with its inclusive upper bounds test agrees with the strict variant
for every probe coordinate. -/
theorem C10_inclusive_agrees_with_strict (me : Coord) (alives : List Coord)
    (hS : ∀ c ∈ alives, inGrid c) :
    alive_neighbor_count me alives = alive_neighbor_count_strict me alives := by
  unfold alive_neighbor_count alive_neighbor_count_strict
  refine congrArg List.length (List.filter_congr ?_)
  intro c _
  cases hA : alives.any (fun a => a == c) with
  | false => simp [hA]
  | true =>
    have hc : c ∈ alives := by
      rcases List.any_eq_true.mp hA with ⟨a, ha, he⟩
      rcases eq_of_beq he with rfl
      exact ha
    have hg := hS c hc
    unfold inGrid at hg
    have e1 : decide (c.1 ≤ HALF_LEN) = decide (c.1 ≤ HALF_LEN - 1) :=
      decide_eq_decide.mpr (by unfold HALF_LEN at *; omega)
    have e2 : decide (c.2 ≤ HALF_LEN) = decide (c.2 ≤ HALF_LEN - 1) :=
      decide_eq_decide.mpr (by unfold HALF_LEN at *; omega)
    rw [e1, e2]

/-- Witness for C10 at a concrete in-grid live set and probe coordinate. -/
theorem C10_witness :
    alive_neighbor_count (0, 1) [(0, 0)] = alive_neighbor_count_strict (0, 1) [(0, 0)] :=
  C10_inclusive_agrees_with_strict (0, 1) [(0, 0)] (by decide)

/-- Helper: on a live set of in-grid coordinates the count is bounded by the
number of candidate neighbors that lie inside the grid. -/
theorem count_le_eligible (me : Coord) (alives : List Coord)
    (hS : ∀ c ∈ alives, inGrid c) :
    alive_neighbor_count me alives ≤
      (([(me.1 - 1, me.2 - 1), (me.1 - 1, me.2), (me.1 - 1, me.2 + 1), (me.1, me.2 - 1),
          (me.1, me.2 + 1), (me.1 + 1, me.2 - 1), (me.1 + 1, me.2),
          (me.1 + 1, me.2 + 1)] : List Coord).filter
        (fun c => decide (inGrid c))).length := by
  unfold alive_neighbor_count
  refine List.Sublist.length_le (List.monotone_filter_right _ ?_)
  intro a h
  rw [Bool.and_eq_true] at h
  rcases h with ⟨_, hmem⟩
  rcases List.any_eq_true.mp hmem with ⟨b, hb, he⟩
  rcases eq_of_beq he with rfl
  exact decide_eq_true (hS b hb)

/-- Helper: a grid corner has exactly 3 in-grid candidate neighbors. -/
theorem eligible_corner (me : Coord) (h : isCorner me) :
    (([(me.1 - 1, me.2 - 1), (me.1 - 1, me.2), (me.1 - 1, me.2 + 1), (me.1, me.2 - 1),
        (me.1, me.2 + 1), (me.1 + 1, me.2 - 1), (me.1 + 1, me.2),
        (me.1 + 1, me.2 + 1)] : List Coord).filter
      (fun c => decide (inGrid c))).length ≤ 3 := by
  obtain ⟨x, y⟩ := me
  unfold isCorner HALF_LEN at h
  simp only at h
  rcases h with ⟨hx | hx, hy | hy⟩ <;> subst hx <;> subst hy <;> decide

/-- Helper: a boundary coordinate that is not a corner has at most 5 in-grid
candidate neighbors. -/
theorem eligible_edge (me : Coord) (hb : isBoundary me) (hc : ¬ isCorner me) :
    (([(me.1 - 1, me.2 - 1), (me.1 - 1, me.2), (me.1 - 1, me.2 + 1), (me.1, me.2 - 1),
        (me.1, me.2 + 1), (me.1 + 1, me.2 - 1), (me.1 + 1, me.2),
        (me.1 + 1, me.2 + 1)] : List Coord).filter
      (fun c => decide (inGrid c))).length ≤ 5 := by
  obtain ⟨x, y⟩ := me
  unfold isBoundary inGrid at hb
  unfold isCorner at hc
  unfold HALF_LEN at hb hc
  simp only at hb hc
  rw [← List.countP_eq_length_filter]
  rcases hb with ⟨⟨hx1, hx2, hy1, hy2⟩, hs | hs | hs | hs⟩ <;> subst hs
  · have h1 : (decide (inGrid (-40 - 1, y - 1))) = false :=
      decide_eq_false (by unfold inGrid HALF_LEN; simp only; omega)
    have h2 : (decide (inGrid (-40 - 1, y))) = false :=
      decide_eq_false (by unfold inGrid HALF_LEN; simp only; omega)
    have h3 : (decide (inGrid (-40 - 1, y + 1))) = false :=
      decide_eq_false (by unfold inGrid HALF_LEN; simp only; omega)
    simp only [List.countP_cons, List.countP_nil, h1, h2, h3, Bool.false_eq_true, if_false]
    split_ifs <;> omega
  · have h1 : (decide (inGrid (40 - 1 + 1, y - 1))) = false :=
      decide_eq_false (by unfold inGrid HALF_LEN; simp only; omega)
    have h2 : (decide (inGrid (40 - 1 + 1, y))) = false :=
      decide_eq_false (by unfold inGrid HALF_LEN; simp only; omega)
    have h3 : (decide (inGrid (40 - 1 + 1, y + 1))) = false :=
      decide_eq_false (by unfold inGrid HALF_LEN; simp only; omega)
    simp only [List.countP_cons, List.countP_nil, h1, h2, h3, Bool.false_eq_true, if_false]
    split_ifs <;> omega
  · have h1 : (decide (inGrid (x - 1, -40 - 1))) = false :=
      decide_eq_false (by unfold inGrid HALF_LEN; simp only; omega)
    have h2 : (decide (inGrid (x, -40 - 1))) = false :=
      decide_eq_false (by unfold inGrid HALF_LEN; simp only; omega)
    have h3 : (decide (inGrid (x + 1, -40 - 1))) = false :=
      decide_eq_false (by unfold inGrid HALF_LEN; simp only; omega)
    simp only [List.countP_cons, List.countP_nil, h1, h2, h3, Bool.false_eq_true, if_false]
    split_ifs <;> omega
  · have h1 : (decide (inGrid (x - 1, 40 - 1 + 1))) = false :=
      decide_eq_false (by unfold inGrid HALF_LEN; simp only; omega)
    have h2 : (decide (inGrid (x, 40 - 1 + 1))) = false :=
      decide_eq_false (by unfold inGrid HALF_LEN; simp only; omega)
    have h3 : (decide (inGrid (x + 1, 40 - 1 + 1))) = false :=
      decide_eq_false (by unfold inGrid HALF_LEN; simp only; omega)
    simp only [List.countP_cons, List.countP_nil, h1, h2, h3, Bool.false_eq_true, if_false]
    split_ifs <;> omega

/-- C3 amended: the bounds test rejects candidates outside the inclusive
square with side [-HALF_LEN, HALF_LEN], not outside the grid; on live sets
whose members all lie inside the grid, a grid corner counts at most 3 and a
boundary coordinate that is not a corner counts at most 5. -/
theorem C3_amended_corner_edge_bounds (me : Coord) (alives : List Coord)
    (hS : ∀ c ∈ alives, inGrid c) :
    (isCorner me → alive_neighbor_count me alives ≤ 3) ∧
    (isBoundary me ∧ ¬ isCorner me → alive_neighbor_count me alives ≤ 5) :=
  ⟨fun h => le_trans (count_le_eligible me alives hS) (eligible_corner me h),
   fun h => le_trans (count_le_eligible me alives hS) (eligible_edge me h.1 h.2)⟩

/-- Witness for the amended C3 at the corner (-40, -40) and a singleton
in-grid live set. -/
theorem C3_amended_witness :
    alive_neighbor_count (-HALF_LEN, -HALF_LEN) [(-39, -39)] ≤ 3 :=
  (C3_amended_corner_edge_bounds (-HALF_LEN, -HALF_LEN) [(-39, -39)] (by decide)).1 (by decide)

end NeighborCount

section Stepper

/-- Helper: the loop body written through updatedCell. -/
theorem stepBody_eq (A : List Coord) (acc : Dashboard × List Cell) (cell : Cell) :
    stepBody A acc cell =
      (if (updatedCell A cell).state == State.Alive then
          { acc.1 with survival := acc.1.survival + 1 }
        else acc.1,
        acc.2 ++ [updatedCell A cell]) := rfl

/-- Helper: the per-cell fold maps updatedCell over the visited cells and adds
the number of cells it leaves Alive to the survival counter. -/
theorem foldl_stepBody (A : List Coord) (cells : List Cell) :
    ∀ (d : Dashboard) (l : List Cell),
      cells.foldl (stepBody A) (d, l) =
        ({ d with survival := d.survival + countAlive (cells.map (updatedCell A)) },
          l ++ cells.map (updatedCell A)) := by
  induction cells with
  | nil =>
    intro d l
    simp [countAlive]
  | cons c rest ih =>
    intro d l
    rw [List.foldl_cons, stepBody_eq, ih]
    cases h : (updatedCell A c).state == State.Alive with
    | false =>
      simp [h, countAlive, List.filter_cons, Prod.ext_iff, Dashboard.mk.injEq]
    | true =>
      simp [h, countAlive, List.filter_cons, Prod.ext_iff, Dashboard.mk.injEq]
      omega

/-- Helper: with a nonempty snapshot the stepper rewrites every cell through
updatedCell, counts the survivors and increments the round counter. -/
theorem dead_or_alive_eq (db : Dashboard) (cells : List Cell)
    (h : aliveCoords cells ≠ []) :
    dead_or_alive db cells =
      ({ round := db.round + 1,
         survival := countAlive (cells.map (updatedCell (aliveCoords cells))) },
        cells.map (updatedCell (aliveCoords cells))) := by
  unfold dead_or_alive
  rw [if_neg (by simp [List.length_eq_zero, h])]
  rw [foldl_stepBody]
  simp

/-- Helper: with an empty snapshot the stepper returns its inputs unchanged. -/
theorem dead_or_alive_extinct (db : Dashboard) (cells : List Cell)
    (h : aliveCoords cells = []) :
    dead_or_alive db cells = (db, cells) := by
  unfold dead_or_alive
  rw [if_pos (by simp [List.length_eq_zero, h])]

/-- Helper: the per-cell rewrite of the loop body realizes the classical Life
transition relation against whatever snapshot it is given. -/
theorem updatedCell_state (A : List Coord) (c : Cell) :
    lifeRuleSpec c.state (alive_neighbor_count c.index_xy A) (updatedCell A c).state := by
  obtain ⟨s, xy⟩ := c
  unfold lifeRuleSpec
  dsimp only
  cases s with
  | Alive =>
    refine ⟨fun _ => ⟨fun hn => ?_, fun hn => ?_⟩, fun hd => by simp at hd⟩
    · simp only [updatedCell]
      rw [if_pos (by simp only [Bool.or_eq_true, decide_eq_true_eq]; omega)]
    · simp only [updatedCell]
      rw [if_neg (by simp only [Bool.or_eq_true, decide_eq_true_eq]; omega)]
  | Dead =>
    refine ⟨fun ha => by simp at ha, fun _ => ⟨fun hn => ?_, fun hn => ?_⟩⟩
    · simp only [updatedCell]
      rw [if_pos (by simp only [beq_iff_eq]; omega)]
    · simp only [updatedCell]
      rw [if_neg (by simp only [beq_iff_eq]; omega)]

/-- C1: with a nonempty live set, the new state of every cell is related to
its old state by the classical Life rule evaluated on the live neighbor count
taken against the snapshot of the live coordinates captured at step start. -/
theorem C1_step_applies_life_rule (db : Dashboard) (cells : List Cell)
    (h : aliveCoords cells ≠ []) (i : Nat) (hi : i < cells.length) :
    lifeRuleSpec (cells.getD i defaultCell).state
      (alive_neighbor_count (cells.getD i defaultCell).index_xy (aliveCoords cells))
      (((dead_or_alive db cells).2.getD i defaultCell).state) := by
  rw [dead_or_alive_eq db cells h]
  simp only [List.getD_eq_getElem?_getD, List.getElem?_map, List.getElem?_eq_getElem hi,
    Option.map_some', Option.getD_some]
  exact updatedCell_state (aliveCoords cells) cells[i]

/-- Witness for C1 on a concrete one-cell live grid. -/
theorem C1_witness :
    lifeRuleSpec (exCells.getD 0 defaultCell).state
      (alive_neighbor_count (exCells.getD 0 defaultCell).index_xy (aliveCoords exCells))
      (((dead_or_alive exDb exCells).2.getD 0 defaultCell).state) :=
  C1_step_applies_life_rule exDb exCells (by decide) 0 (by decide)

/-- C4: a step that observes zero live cells returns dashboard and grid
unchanged, and every iterate of the tick from that point is the identity, so
round and survival stay frozen forever. -/
theorem C4_extinction_freezes (db : Dashboard) (cells : List Cell)
    (h : aliveCoords cells = []) :
    dead_or_alive db cells = (db, cells) ∧
    ∀ n : Nat, tick^[n] (db, cells) = (db, cells) := by
  have h1 : tick (db, cells) = (db, cells) := dead_or_alive_extinct db cells h
  exact ⟨h1, fun n => Function.iterate_fixed h1 n⟩

/-- Witness for C4 on a concrete all-dead one-cell grid. -/
theorem C4_witness :
    dead_or_alive exDb exDeadCells = (exDb, exDeadCells) ∧
    tick^[3] (exDb, exDeadCells) = (exDb, exDeadCells) :=
  ⟨(C4_extinction_freezes exDb exDeadCells (by decide)).1,
   (C4_extinction_freezes exDb exDeadCells (by decide)).2 3⟩

/-- C5: after a non no-op step the survival counter equals the number of
Alive cells of the resulting grid and the round counter has grown by one. -/
theorem C5_census_and_round (db : Dashboard) (cells : List Cell)
    (h : aliveCoords cells ≠ []) :
    (dead_or_alive db cells).1.survival = countAlive ((dead_or_alive db cells).2) ∧
    (dead_or_alive db cells).1.round = db.round + 1 := by
  rw [dead_or_alive_eq db cells h]
  exact ⟨rfl, rfl⟩

/-- Witness for C5 on a concrete one-cell live grid. -/
theorem C5_witness :
    (dead_or_alive exDb exCells).1.survival = countAlive ((dead_or_alive exDb exCells).2) ∧
    (dead_or_alive exDb exCells).1.round = exDb.round + 1 :=
  C5_census_and_round exDb exCells (by decide)

/-- C9: a step never adds or removes cells and never moves one: the resulting
grid has the same length and the coordinate at every index is unchanged. -/
theorem C9_frame (db : Dashboard) (cells : List Cell) :
    ((dead_or_alive db cells).2).length = cells.length ∧
    ∀ i : Nat,
      (((dead_or_alive db cells).2).getD i defaultCell).index_xy =
        (cells.getD i defaultCell).index_xy := by
  by_cases h : aliveCoords cells = []
  · rw [dead_or_alive_extinct db cells h]
    exact ⟨rfl, fun i => rfl⟩
  · rw [dead_or_alive_eq db cells h]
    refine ⟨by simp, ?_⟩
    intro i
    simp only [List.getD_eq_getElem?_getD, List.getElem?_map]
    cases hj : cells[i]? with
    | none => simp
    | some c => simp [updatedCell]

end Stepper

section Seed

/-- Helper: the i32 remainder by HALF_LEN lies between -(HALF_LEN - 1) and
HALF_LEN - 1, for negative inputs included. -/
theorem tmod_half_len_bounds (a : Int) :
    -(HALF_LEN - 1) ≤ Int.tmod a HALF_LEN ∧ Int.tmod a HALF_LEN ≤ HALF_LEN - 1 := by
  have hpos : (0 : Int) < HALF_LEN := by decide
  have hup := Int.tmod_lt_of_pos a hpos
  constructor
  · cases a with
    | ofNat m =>
      have hnn := Int.tmod_nonneg (a := Int.ofNat m) HALF_LEN (Int.ofNat_nonneg m)
      unfold HALF_LEN at *
      omega
    | negSucc m =>
      have hred : Int.tmod (Int.negSucc m) HALF_LEN = -(((m + 1) % 40 : Nat) : Int) := rfl
      rw [hred]
      unfold HALF_LEN
      omega
  · unfold HALF_LEN at *
    omega

/-- Helper: unfolding equation of the sampling loop on a nonempty stream. -/
theorem seedAux_cons (target : Nat) (r : Int × Int) (rest : List (Int × Int))
    (acc : Finset Coord) :
    seedAux target (r :: rest) acc =
      if target ≤ acc.card then some acc
      else seedAux target rest (insert (toCoord r) acc) := rfl

/-- Helper: a completing run of the sampling loop only ever grows the set. -/
theorem seedAux_subset (target : Nat) :
    ∀ (raws : List (Int × Int)) (acc s : Finset Coord),
      seedAux target raws acc = some s → acc ⊆ s := by
  intro raws
  induction raws with
  | nil =>
    intro acc s hs
    unfold seedAux at hs
    split at hs
    · cases hs; exact Finset.Subset.refl _
    · cases hs
  | cons r rest ih =>
    intro acc s hs
    rw [seedAux_cons] at hs
    split at hs
    · cases hs; exact Finset.Subset.refl _
    · exact Finset.Subset.trans (Finset.subset_insert _ _) (ih _ _ hs)

/-- Helper: the loop adds at most one coordinate per draw and stops at the
first check whose size reaches the target, so a completing run started below
the target returns a set of exactly the target size. -/
theorem seedAux_card (target : Nat) :
    ∀ (raws : List (Int × Int)) (acc s : Finset Coord),
      seedAux target raws acc = some s → acc.card ≤ target → s.card = target := by
  intro raws
  induction raws with
  | nil =>
    intro acc s hs hle
    unfold seedAux at hs
    split at hs
    · cases hs; omega
    · cases hs
  | cons r rest ih =>
    intro acc s hs hle
    rw [seedAux_cons] at hs
    split at hs
    · cases hs; omega
    · refine ih _ _ hs ?_
      have := Finset.card_insert_le (toCoord r) acc
      omega

/-- Helper: every member of a completed run is an initial member or the
reduction of some draw. -/
theorem seedAux_mem_bound (target : Nat) (P : Coord → Prop)
    (hP : ∀ r, P (toCoord r)) :
    ∀ (raws : List (Int × Int)) (acc s : Finset Coord),
      seedAux target raws acc = some s → (∀ c ∈ acc, P c) → ∀ c ∈ s, P c := by
  intro raws
  induction raws with
  | nil =>
    intro acc s hs hacc
    unfold seedAux at hs
    split at hs
    · cases hs; exact hacc
    · cases hs
  | cons r rest ih =>
    intro acc s hs hacc
    rw [seedAux_cons] at hs
    split at hs
    · cases hs; exact hacc
    · refine ih _ _ hs ?_
      intro c hc
      rcases Finset.mem_insert.mp hc with h1 | h1
      · rw [h1]; exact hP r
      · exact hacc c h1

/-- Helper: the loop completes whenever the stream carries enough distinct
reduced coordinates. -/
theorem seedAux_isSome (target : Nat) :
    ∀ (raws : List (Int × Int)) (acc : Finset Coord),
      target ≤ (acc ∪ (raws.map toCoord).toFinset).card →
      (seedAux target raws acc).isSome = true := by
  intro raws
  induction raws with
  | nil =>
    intro acc hcard
    unfold seedAux
    rw [if_pos (by simpa using hcard)]
    rfl
  | cons r rest ih =>
    intro acc hcard
    rw [seedAux_cons]
    split
    · rfl
    · apply ih
      refine le_trans hcard (Finset.card_le_card ?_)
      intro c hc
      simp only [List.map_cons, List.toFinset_cons, Finset.mem_union, Finset.mem_insert] at hc ⊢
      tauto

/-- Helper: the quadrant stream is already reduced. -/
theorem quadrantRaws_coords : quadrantRaws.map toCoord = quadrantRaws := by
  unfold quadrantRaws
  rw [List.map_map]
  refine List.map_congr_left ?_
  intro n hn
  rw [List.mem_range] at hn
  unfold toCoord
  dsimp only [Function.comp]
  have h1 : Int.tmod ((n / 40 : Nat) : Int) HALF_LEN = ((n / 40 : Nat) : Int) :=
    Int.tmod_eq_of_lt (by positivity) (by unfold HALF_LEN; omega)
  have h2 : Int.tmod ((n % 40 : Nat) : Int) HALF_LEN = ((n % 40 : Nat) : Int) :=
    Int.tmod_eq_of_lt (by positivity) (by unfold HALF_LEN; omega)
  rw [h1, h2]

/-- Helper: the quadrant stream has no duplicate draws. -/
theorem quadrantRaws_nodup : quadrantRaws.Nodup := by
  unfold quadrantRaws
  refine List.Nodup.map ?_ (List.nodup_range 1600)
  intro n m hnm
  have h1 : ((n / 40 : Nat) : Int) = ((m / 40 : Nat) : Int) := congrArg Prod.fst hnm
  have h2 : ((n % 40 : Nat) : Int) = ((m % 40 : Nat) : Int) := congrArg Prod.snd hnm
  have h1n : n / 40 = m / 40 := by exact_mod_cast h1
  have h2n : n % 40 = m % 40 := by exact_mod_cast h2
  omega

/-- Helper: the quadrant stream carries 1600 distinct coordinates. -/
theorem quadrantRaws_coords_card : ((quadrantRaws.map toCoord).toFinset).card = 1600 := by
  rw [quadrantRaws_coords, List.toFinset_card_of_nodup quadrantRaws_nodup]
  unfold quadrantRaws
  simp

/-- Helper: the seed loop completes on the quadrant stream. -/
theorem seed_quadrant_isSome : (seed quadrantRaws).isSome = true := by
  unfold seed
  apply seedAux_isSome
  rw [Finset.empty_union, quadrantRaws_coords_card]
  decide

/-- Helper: the seed loop completes on the stream whose first draw reduces
to (-1, -1). -/
theorem seed_neg_isSome : (seed negRaws).isSome = true := by
  unfold seed
  apply seedAux_isSome
  rw [Finset.empty_union]
  unfold negRaws
  rw [List.map_cons, List.toFinset_cons]
  refine le_trans ?_ (Finset.card_le_card (Finset.subset_insert _ _))
  rw [quadrantRaws_coords_card]
  decide

/-- Helper: that completing run returns a set containing (-1, -1), a
coordinate with negative components. -/
theorem seed_neg_run : ∃ s, seed negRaws = some s ∧ ((-1, -1) : Coord) ∈ s := by
  obtain ⟨s, hs⟩ := Option.isSome_iff_exists.mp seed_neg_isSome
  refine ⟨s, hs, ?_⟩
  have hstep : seedAux INIT_ALIVE_COUNT quadrantRaws (insert (toCoord (-1, -1)) ∅) = some s := by
    rw [← hs]
    show _ = seed negRaws
    unfold seed negRaws
    rw [seedAux_cons, if_neg (by decide)]
  exact Finset.mem_of_subset (seedAux_subset _ _ _ _ hstep) (by decide)

/-- Helper: the sampling domain of one reduced draw has 79 * 79 = 6241
coordinates. -/
theorem sampleDomain_card : sampleDomain.card = 6241 := by
  unfold sampleDomain
  rw [Finset.card_product, Int.card_Icc]
  decide

/-- Helper: every reduced draw lands in the sampling domain. -/
theorem toCoord_mem_sampleDomain (r : Int × Int) : toCoord r ∈ sampleDomain := by
  unfold sampleDomain toCoord
  rw [Finset.mem_product]
  refine ⟨Finset.mem_Icc.mpr ?_, Finset.mem_Icc.mpr ?_⟩
  · exact ⟨(tmod_half_len_bounds r.1).1, (tmod_half_len_bounds r.1).2⟩
  · exact ⟨(tmod_half_len_bounds r.2).1, (tmod_half_len_bounds r.2).2⟩

set_option maxRecDepth 4000 in
/-- Helper: when the target exceeds the sampling domain size, the loop can
never reach it: it consumes every draw and is still unfinished. -/
theorem seedAux_stuck (target : Nat) (htarget : sampleDomain.card < target) :
    ∀ (raws : List (Int × Int)) (acc : Finset Coord),
      acc ⊆ sampleDomain → seedAux target raws acc = none := by
  intro raws
  induction raws with
  | nil =>
    intro acc hsub
    unfold seedAux
    rw [if_neg]
    intro hle
    have := Finset.card_le_card hsub
    omega
  | cons r rest ih =>
    intro acc hsub
    have hno : ¬ target ≤ acc.card := by
      intro hle
      have := Finset.card_le_card hsub
      omega
    rw [seedAux_cons, if_neg hno]
    refine ih _ ?_
    intro c hc
    rcases Finset.mem_insert.mp hc with h1 | h1
    · rw [h1]; exact toCoord_mem_sampleDomain r
    · exact hsub h1

/-- Helper: membership in the setup index range. -/
theorem mem_coordRange_iff (a : Int) : a ∈ coordRange ↔ -HALF_LEN ≤ a ∧ a < HALF_LEN := by
  unfold coordRange
  rw [List.mem_map]
  constructor
  · rintro ⟨n, hn, rfl⟩
    rw [List.mem_range] at hn
    unfold HALF_LEN at *
    constructor <;> omega
  · intro h
    unfold HALF_LEN at *
    refine ⟨(a + 40).toNat, ?_, by omega⟩
    rw [List.mem_range]
    omega

/-- Helper: the materialized cell coordinates are exactly the in-grid ones. -/
theorem mem_gridCoords_iff (c : Coord) : c ∈ gridCoords ↔ inGrid c := by
  obtain ⟨x, y⟩ := c
  unfold gridCoords inGrid
  rw [List.mem_flatMap]
  constructor
  · rintro ⟨a, ha, hmem⟩
    rw [List.mem_map] at hmem
    obtain ⟨b, hb, heq⟩ := hmem
    injection heq with e1 e2
    subst e1
    subst e2
    have h1 := (mem_coordRange_iff a).mp ha
    have h2 := (mem_coordRange_iff b).mp hb
    exact ⟨h1.1, h1.2, h2.1, h2.2⟩
  · rintro ⟨h1, h2, h3, h4⟩
    refine ⟨x, (mem_coordRange_iff x).mpr ⟨h1, h2⟩, ?_⟩
    rw [List.mem_map]
    exact ⟨y, (mem_coordRange_iff y).mpr ⟨h3, h4⟩, rfl⟩

/-- C2 counterexample: there is a run of the seed generator (the stream
whose first draw is (-1, -1), followed by enough distinct draws to finish)
whose returned set contains the coordinate (-1, -1), which lies outside the
claimed sampling sub-range [0, HALF_LEN) x [0, HALF_LEN). -/
theorem C2_counterexample :
    ((-1, -1) : Coord) ∈ (seed negRaws).getD ∅ ∧ ((-1, -1) : Coord).1 < 0 := by
  obtain ⟨s, hs, hmem⟩ := seed_neg_run
  rw [hs]
  exact ⟨hmem, by decide⟩

/-- C2 amended: every completed run of the seed generator returns a set of
exactly INIT_ALIVE_COUNT = 1600 coordinates (unique by construction, the
result being a set), each with both components between -(HALF_LEN - 1) and
HALF_LEN - 1, the image of the i32 remainder by HALF_LEN. -/
theorem C2_amended_card_and_range (raws : List (Int × Int)) (s : Finset Coord)
    (hs : seed raws = some s) :
    INIT_ALIVE_COUNT = 1600 ∧ s.card = INIT_ALIVE_COUNT ∧
    ∀ c ∈ s, -(HALF_LEN - 1) ≤ c.1 ∧ c.1 ≤ HALF_LEN - 1 ∧
      -(HALF_LEN - 1) ≤ c.2 ∧ c.2 ≤ HALF_LEN - 1 := by
  refine ⟨by decide, seedAux_card _ _ _ _ hs (by simp), ?_⟩
  refine seedAux_mem_bound _ _ ?_ _ _ _ hs (fun c hc => absurd hc (Finset.not_mem_empty c))
  intro r
  have h1 := tmod_half_len_bounds r.1
  have h2 := tmod_half_len_bounds r.2
  exact ⟨h1.1, h1.2, h2.1, h2.2⟩

/-- Witness for the amended C2 on the quadrant stream. -/
theorem C2_witness : ((seed quadrantRaws).getD ∅).card = INIT_ALIVE_COUNT := by
  obtain ⟨s, hs⟩ := Option.isSome_iff_exists.mp seed_quadrant_isSome
  rw [hs, Option.getD_some]
  exact (C2_amended_card_and_range quadrantRaws s hs).2.1

/-- C8: every coordinate of a completed seed run has both components between
-(HALF_LEN - 1) and HALF_LEN - 1, hence lies strictly inside the grid bounds
and is the coordinate of a cell materialized by fn setup. -/
theorem C8_seed_coords_in_grid (raws : List (Int × Int)) (s : Finset Coord)
    (hs : seed raws = some s) :
    ∀ c ∈ s, (-(HALF_LEN - 1) ≤ c.1 ∧ c.1 ≤ HALF_LEN - 1 ∧
      -(HALF_LEN - 1) ≤ c.2 ∧ c.2 ≤ HALF_LEN - 1) ∧ c ∈ gridCoords := by
  refine seedAux_mem_bound _ _ ?_ _ _ _ hs (fun c hc => absurd hc (Finset.not_mem_empty c))
  intro r
  have h1 := tmod_half_len_bounds r.1
  have h2 := tmod_half_len_bounds r.2
  refine ⟨⟨h1.1, h1.2, h2.1, h2.2⟩, ?_⟩
  refine (mem_gridCoords_iff _).mpr ?_
  show -HALF_LEN ≤ Int.tmod r.1 HALF_LEN ∧ Int.tmod r.1 HALF_LEN < HALF_LEN ∧
    -HALF_LEN ≤ Int.tmod r.2 HALF_LEN ∧ Int.tmod r.2 HALF_LEN < HALF_LEN
  unfold HALF_LEN at *
  omega

/-- Witness for C8: the seeded coordinate (-1, -1) of the exhibited run is a
materialized grid cell coordinate. -/
theorem C8_witness : ((-1, -1) : Coord) ∈ gridCoords := by
  obtain ⟨s, hs, hmem⟩ := seed_neg_run
  exact (C8_seed_coords_in_grid negRaws s hs (-1, -1) hmem).2

/-- C6 amended: no startup enforcement of the configuration invariant exists
in the code: there is no check and no error path. The compiled configuration
satisfies the invariant (1600 is at most the sampling domain size 6241), and
whenever the target exceeds the domain size the sampling loop never
completes, for every finite stream of random draws, instead of failing fast. -/
theorem C6_amended_no_startup_check :
    INIT_ALIVE_COUNT ≤ sampleDomain.card ∧
    ∀ (target : Nat) (raws : List (Int × Int)),
      sampleDomain.card < target → seedAux target raws ∅ = none := by
  constructor
  · rw [sampleDomain_card]
    decide
  · intro target raws h
    exact seedAux_stuck target h raws ∅ (Finset.empty_subset _)

/-- Witness for the amended C6 at target 6242 and the empty stream. -/
theorem C6_witness : seedAux 6242 [] ∅ = none := by
  refine C6_amended_no_startup_check.2 6242 [] ?_
  rw [sampleDomain_card]
  omega

/-- C6 counterexample: with a target exceeding the domain size, a run over a
stream of 1600 draws produces no result and no configuration error: the loop
is still waiting for more randomness, refuting any fail-fast behavior. -/
theorem C6_counterexample :
    sampleDomain.card < 6242 ∧ seedAux 6242 quadrantRaws ∅ = none := by
  have hc : sampleDomain.card < 6242 := by
    rw [sampleDomain_card]
    omega
  exact ⟨hc, seedAux_stuck 6242 hc quadrantRaws ∅ (Finset.empty_subset _)⟩

end Seed

end GameOfLife
